import Mathlib

/-!
# Verification of the TaskWise task-list core logic

Shallow embedding of the repository's core state-management and CRUD layer:

* `task.model.ts` — the `Task` entity (`id`, `title`, `isComplete`);
* `application-task-state.service.ts` — the `BehaviorSubject`-based store,
  modelled as the `tasks` field of `AppState` (its current value) together
  with explicit `Event.commit` events for each `tasks$.next(...)` call;
* `task-crud-operations.service.ts` — `loadAllTasksFromDevice`,
  `createNewTask`, `updateTaskStatus`, `deleteTask`, and the private
  persistence helpers `_saveTasksToDevice` / `_loadTasksFromDevice` over
  `localStorage` under the fixed key `tutorialAppTasks`.

The `localStorage` boundary is modelled by `Storage`: an availability flag
(`typeof window !== 'undefined' && window.localStorage`), the optional string
stored under the key, and a flag saying whether the next `setItem` throws.
`JSON.stringify` / `JSON.parse` of a `Task[]` value are embedded as the
executable `serializeTasks` / `parseTasks` below, which reproduce the exact
JSON text `JSON.stringify` emits for task arrays (no whitespace, fields in
declaration order, strings escaped as by `QuoteJSONString`), and a parser
that inverts it.  JSON texts that `JSON.parse` would accept but that do not
denote an array of well-formed task records are outside this typed model and
are treated as decode failures.

Promise outcomes are modelled by `OpResult` (`resolved` / `rejected`) and the
non-fatal `console.warn` reports by `Event.warn`.
-/

namespace TaskWise

/-- The `Task` interface from `task.model.ts`. -/
structure Task where
  id : String
  title : String
  isComplete : Bool
deriving DecidableEq, Repr

/-- The set of characters removed by ECMAScript `String.prototype.trim`:
`WhiteSpace` (TAB, VT, FF, SP, NBSP, ZWNBSP and the Unicode `Zs` category)
together with `LineTerminator` (LF, CR, LS, PS). -/
def isJsWhitespace (c : Char) : Bool :=
  c == '\t' || c == '\n' || c == '\x0B' || c == '\x0C' || c == '\r' || c == ' ' ||
  c == '\xA0' || c == '\u1680' ||
  (decide (0x2000 ≤ c.toNat) && decide (c.toNat ≤ 0x200A)) ||
  c == '\u2028' || c == '\u2029' || c == '\u202F' || c == '\u205F' ||
  c == '\u3000' || c == '\uFEFF'

/-- ECMAScript `title.trim()`: drop leading and trailing JS whitespace. -/
def jsTrim (s : String) : String :=
  ⟨((s.data.dropWhile isJsWhitespace).reverse.dropWhile isJsWhitespace).reverse⟩

/-- The id generator of `createNewTask`:
`` `task-${Date.now()}-${Math.random().toString(36).substring(2, 7)}` ``.
`now` is the millisecond clock reading and `rand` the five-character random
suffix; both are inputs of the model since the source draws them from the
environment. -/
def genTaskId (now : Nat) (rand : String) : String :=
  "task-" ++ toString now ++ "-" ++ rand

/-! ## Serialization: `JSON.stringify(tasks)` for a `Task[]` value -/

/-- Lowercase hex digit, for the `\u00XX` escapes `JSON.stringify` emits. -/
def hexDigit (n : Nat) : Char :=
  if n < 10 then Char.ofNat ('0'.toNat + n) else Char.ofNat ('a'.toNat + (n - 10))

/-- How `JSON.stringify` serializes one character inside a string literal
(ECMA-262 `QuoteJSONString`): `"` and `\` are backslash-escaped, the five
control characters with short forms use them, other control characters get a
`\u00XX` escape, and everything else is emitted literally. -/
def escChar (c : Char) : List Char :=
  if c = '"' then ['\\', '"']
  else if c = '\\' then ['\\', '\\']
  else if c = '\x08' then ['\\', 'b']
  else if c = '\x0C' then ['\\', 'f']
  else if c = '\n' then ['\\', 'n']
  else if c = '\r' then ['\\', 'r']
  else if c = '\t' then ['\\', 't']
  else if c.toNat < 32 then
    ['\\', 'u', '0', '0', hexDigit (c.toNat / 16), hexDigit (c.toNat % 16)]
  else [c]

/-- Escape every character of a string body. -/
def escStr : List Char → List Char
  | [] => []
  | c :: cs => escChar c ++ escStr cs

/-- A JSON string literal: `"` body `"`. -/
def quoteChars (l : List Char) : List Char :=
  '"' :: escStr l ++ ['"']

/-- `JSON.stringify` of a boolean. -/
def boolChars (b : Bool) : List Char :=
  if b then ['t', 'r', 'u', 'e'] else ['f', 'a', 'l', 's', 'e']

/-- The literal `{"id":` opening a serialized task object. -/
def litObjId : List Char := ['{', '"', 'i', 'd', '"', ':']

/-- The literal `,"title":`. -/
def litTitle : List Char := [',', '"', 't', 'i', 't', 'l', 'e', '"', ':']

/-- The literal `,"isComplete":`. -/
def litComplete : List Char :=
  [',', '"', 'i', 's', 'C', 'o', 'm', 'p', 'l', 'e', 't', 'e', '"', ':']

/-- `JSON.stringify` of one task:
`{"id":"...","title":"...","isComplete":true|false}`. -/
def taskChars (t : Task) : List Char :=
  litObjId ++ quoteChars t.id.data ++ litTitle ++ quoteChars t.title.data ++
    litComplete ++ boolChars t.isComplete ++ ['}']

/-- Comma-separated serialized tasks (the inside of the array brackets). -/
def tasksBody : List Task → List Char
  | [] => []
  | [t] => taskChars t
  | t :: t2 :: ts => taskChars t ++ ',' :: tasksBody (t2 :: ts)

/-- `JSON.stringify` of a `Task[]` value, as a character list. -/
def serializeTasks (l : List Task) : List Char :=
  '[' :: tasksBody l ++ [']']

/-- `JSON.stringify` of a `Task[]` value, as a string. -/
def serializeTasksStr (l : List Task) : String :=
  ⟨serializeTasks l⟩

/-! ## Parsing: `JSON.parse` read back as a `Task[]` value -/

/-- Value of a hex digit (JSON accepts both cases on input). -/
def hexVal (c : Char) : Option Nat :=
  if '0' ≤ c ∧ c ≤ '9' then some (c.toNat - '0'.toNat)
  else if 'a' ≤ c ∧ c ≤ 'f' then some (c.toNat - 'a'.toNat + 10)
  else if 'A' ≤ c ∧ c ≤ 'F' then some (c.toNat - 'A'.toNat + 10)
  else none

/-- Prepend a character to the string part of a partial parse. -/
def consParsed (c : Char) (o : Option (List Char × List Char)) :
    Option (List Char × List Char) :=
  o.map fun p => (c :: p.1, p.2)

/-- Parse the body of a JSON string literal (after the opening quote) up to
and including the closing quote, handling the escape sequences of JSON.
Returns the decoded characters and the remaining input. -/
def parseStringBody : List Char → Option (List Char × List Char)
  | [] => none
  | c :: r =>
    if c = '"' then some ([], r)
    else if c = '\\' then
      match r with
      | [] => none
      | e :: r2 =>
        if e = '"' then consParsed '"' (parseStringBody r2)
        else if e = '\\' then consParsed '\\' (parseStringBody r2)
        else if e = '/' then consParsed '/' (parseStringBody r2)
        else if e = 'b' then consParsed '\x08' (parseStringBody r2)
        else if e = 'f' then consParsed '\x0C' (parseStringBody r2)
        else if e = 'n' then consParsed '\n' (parseStringBody r2)
        else if e = 'r' then consParsed '\r' (parseStringBody r2)
        else if e = 't' then consParsed '\t' (parseStringBody r2)
        else if e = 'u' then
          match r2 with
          | h1 :: h2 :: h3 :: h4 :: r3 =>
            match hexVal h1, hexVal h2, hexVal h3, hexVal h4 with
            | some a, some b, some c2, some d =>
              consParsed (Char.ofNat (((a * 16 + b) * 16 + c2) * 16 + d))
                (parseStringBody r3)
            | _, _, _, _ => none
          | _ => none
        else none
    else consParsed c (parseStringBody r)

/-- Parse a JSON string literal, opening quote included. -/
def parseJString (l : List Char) : Option (List Char × List Char) :=
  match l with
  | '"' :: r => parseStringBody r
  | _ => none

/-- Consume an expected literal character sequence. -/
def stripLit : List Char → List Char → Option (List Char)
  | [], l => some l
  | _ :: _, [] => none
  | p :: ps, c :: cs => if c = p then stripLit ps cs else none

/-- Parse a JSON boolean. -/
def parseBool (l : List Char) : Option (Bool × List Char) :=
  match stripLit ['t', 'r', 'u', 'e'] l with
  | some r => some (true, r)
  | none =>
    match stripLit ['f', 'a', 'l', 's', 'e'] l with
    | some r => some (false, r)
    | none => none

/-- Parse one serialized task object. -/
def parseTask (l : List Char) : Option (Task × List Char) :=
  match stripLit litObjId l with
  | none => none
  | some r1 =>
    match parseJString r1 with
    | none => none
    | some (idc, r2) =>
      match stripLit litTitle r2 with
      | none => none
      | some r3 =>
        match parseJString r3 with
        | none => none
        | some (titlec, r4) =>
          match stripLit litComplete r4 with
          | none => none
          | some r5 =>
            match parseBool r5 with
            | none => none
            | some (b, r6) =>
              match stripLit ['}'] r6 with
              | none => none
              | some r7 => some (⟨⟨idc⟩, ⟨titlec⟩, b⟩, r7)

/-- Parse one or more comma-separated tasks; `fuel` bounds the number of
separators still allowed (any value at least the task count works). -/
def parseTasksBody (fuel : Nat) (l : List Char) : Option (List Task × List Char) :=
  match parseTask l with
  | none => none
  | some (t, r) =>
    match r with
    | ',' :: r2 =>
      match fuel with
      | 0 => none
      | f + 1 =>
        match parseTasksBody f r2 with
        | none => none
        | some (ts, r3) => some (t :: ts, r3)
    | _ => some ([t], r)

/-- Parse a full serialized `Task[]` record (the whole input must be the
array; trailing characters are rejected). -/
def parseTasks (l : List Char) : Option (List Task) :=
  match l with
  | '[' :: ']' :: r2 => if r2 = [] then some [] else none
  | '[' :: r =>
    match parseTasksBody r.length r with
    | none => none
    | some (ts, r2) =>
      match r2 with
      | ']' :: r3 => if r3 = [] then some ts else none
      | _ => none
  | _ => none

/-- Decode a stored record string as a `Task[]` value. -/
def parseTasksStr (s : String) : Option (List Task) :=
  parseTasks s.data

/-! ## The storage boundary and the application state -/

/-- The `localStorage` boundary as seen by the two private persistence
helpers: whether `typeof window !== 'undefined' && window.localStorage`
holds, the current string value under `TASKS_STORAGE_KEY` (`none` when
`getItem` returns `null`), and whether the next `setItem` call throws. -/
structure Storage where
  available : Bool
  record : Option String
  writeFails : Bool
deriving DecidableEq, Repr

/-- The in-memory application state: the current value of the
`BehaviorSubject` `tasks$` in `ApplicationTaskStateService` together with the
storage boundary. -/
structure AppState where
  tasks : List Task
  storage : Storage
deriving DecidableEq, Repr

/-- Promise outcome of an operation as observed by its caller. -/
inductive OpResult where
  | resolved
  | rejected
deriving DecidableEq, Repr

/-- The `console.warn` reports the service emits on its non-fatal paths. -/
inductive Warning where
  | emptyTitle
  | updateNotFound
  | deleteNotFound
deriving DecidableEq, Repr

/-- Observable steps of one operation, in order: a `commit` for each
`tasks$.next(list)` call, a `save` for each `_saveTasksToDevice(list)`
invocation, and a `warn` for each non-fatal console warning. -/
inductive Event where
  | commit (l : List Task)
  | save (l : List Task)
  | warn (w : Warning)
deriving DecidableEq, Repr

/-- Result of running one service operation: the state afterwards, the
ordered list of observable events, and the promise outcome. -/
structure OpOut where
  state : AppState
  events : List Event
  result : OpResult
deriving DecidableEq, Repr

/-- `_saveTasksToDevice(tasks)`: when the boundary is available, try
`setItem(TASKS_STORAGE_KEY, JSON.stringify(tasks))` — on an exception the
promise rejects and the record is unchanged; when the boundary is missing it
resolves without writing. -/
def _saveTasksToDevice (tasks : List Task) (st : Storage) : Storage × OpResult :=
  if st.available then
    if st.writeFails then (st, .rejected)
    else ({ st with record := some (serializeTasksStr tasks) }, .resolved)
  else (st, .resolved)

/-- `_loadTasksFromDevice()`: read `getItem(TASKS_STORAGE_KEY)`; a missing
boundary, a `null` or falsy (empty) record, or a record that fails to decode
as a `Task[]` all yield `[]`; the promise never rejects. -/
def _loadTasksFromDevice (st : Storage) : List Task :=
  if st.available then
    match st.record with
    | none => []
    | some s =>
      if s = "" then []
      else
        match parseTasksStr s with
        | some ts => ts
        | none => []
  else []

/-- `loadAllTasksFromDevice()`: load the snapshot (the helper never rejects,
so the `catch` branch committing `[]` is unreachable) and commit the result
to the store.  No write to storage ever happens here. -/
def loadAllTasksFromDevice (s : AppState) : OpOut :=
  let ts := _loadTasksFromDevice s.storage
  ⟨{ s with tasks := ts }, [.commit ts], .resolved⟩

/-- `createNewTask(title)`: on an empty (`!title`) or whitespace-only title,
warn and return (the promise resolves; nothing is thrown).  Otherwise build
the new task from the generated id and the trimmed title with
`isComplete: false`, append it to the current list read from the store,
commit the new list, then persist the same list; the promise outcome is the
save's outcome. -/
def createNewTask (title : String) (now : Nat) (rand : String) (s : AppState) :
    OpOut :=
  if title = "" ∨ jsTrim title = "" then ⟨s, [.warn .emptyTitle], .resolved⟩
  else
    let newTask : Task := ⟨genTaskId now rand, jsTrim title, false⟩
    let updatedTasks := s.tasks ++ [newTask]
    let sv := _saveTasksToDevice updatedTasks s.storage
    ⟨⟨updatedTasks, sv.1⟩, [.commit updatedTasks, .save updatedTasks], sv.2⟩

/-- The per-task function `updateTaskStatus` maps over the list:
`task.id === taskId ? { ...task, isComplete: isComplete } : task`. -/
def updateFn (taskId : String) (isComplete : Bool) (t : Task) : Task :=
  if t.id = taskId then { t with isComplete := isComplete } else t

/-- `updateTaskStatus(taskId, isComplete)`: map the update over the current
list; commit and persist only when the serialized lists differ
(`JSON.stringify(currentTasks) !== JSON.stringify(updatedTasks)`), otherwise
warn that the task was not found.  The promise resolves in the warn branch
and carries the save's outcome in the commit branch. -/
def updateTaskStatus (taskId : String) (isComplete : Bool) (s : AppState) :
    OpOut :=
  let updatedTasks := s.tasks.map (updateFn taskId isComplete)
  if serializeTasksStr s.tasks ≠ serializeTasksStr updatedTasks then
    let sv := _saveTasksToDevice updatedTasks s.storage
    ⟨⟨updatedTasks, sv.1⟩, [.commit updatedTasks, .save updatedTasks], sv.2⟩
  else ⟨s, [.warn .updateNotFound], .resolved⟩

/-- `deleteTask(taskId)`: filter out the task with the given id; commit and
persist only when the length actually changed
(`currentTasks.length !== updatedTasks.length`), otherwise warn that the task
was not found. -/
def deleteTask (taskId : String) (s : AppState) : OpOut :=
  let updatedTasks := s.tasks.filter fun t => t.id ≠ taskId
  if s.tasks.length ≠ updatedTasks.length then
    let sv := _saveTasksToDevice updatedTasks s.storage
    ⟨⟨updatedTasks, sv.1⟩, [.commit updatedTasks, .save updatedTasks], sv.2⟩
  else ⟨s, [.warn .deleteNotFound], .resolved⟩

/-! ## Sequences of mutating operations -/

/-- One UI-triggered mutating call into the service.  A `create` carries the
environment inputs of the id generator (`Date.now()` and the random
suffix). -/
inductive Op where
  | create (title : String) (now : Nat) (rand : String)
  | update (id : String) (b : Bool)
  | del (id : String)
deriving DecidableEq, Repr

/-- The state transition of one operation. -/
def step (op : Op) (s : AppState) : AppState :=
  match op with
  | .create title now rand => (createNewTask title now rand s).state
  | .update id b => (updateTaskStatus id b s).state
  | .del id => (deleteTask id s).state

/-- Run a sequence of operations from a state. -/
def run : List Op → AppState → AppState
  | [], s => s
  | op :: ops, s => run ops (step op s)

/-- Whether, at state `s`, the id a `create` operation's generator inputs
produce is distinct from every id present in the store's list (non-create
operations impose no condition). -/
def opFresh (op : Op) (s : AppState) : Bool :=
  match op with
  | .create _ now rand => decide (genTaskId now rand ∉ s.tasks.map Task.id)
  | .update _ _ => true
  | .del _ => true

/-- Decidable check that, along a run, every id the generator hands to a
`create` is distinct from every id then present in the store's list. -/
def freshRun : List Op → AppState → Bool
  | [], _ => true
  | op :: ops, s => opFresh op s && freshRun ops (step op s)

/-- Property of one operation's outcome used by the ordering claim: the
operation emitted exactly a commit followed by a save of one and the same
list, that list is the state the store is left with (kept even on a failed
write), and a throwing `setItem` on an available boundary surfaces as a
rejected promise. -/
def commitThenSaveKept (o : OpOut) (st : Storage) : Prop :=
  ∃ l, o.events = [Event.commit l, Event.save l] ∧ o.state.tasks = l ∧
    (st.available = true → st.writeFails = true → o.result = .rejected)

/-! ## The serializer/parser round trip -/

theorem stripLit_append (p l : List Char) : stripLit p (p ++ l) = some l := by
  induction p with
  | nil => rfl
  | cons c cs ih => simp [stripLit, ih]

theorem hexVal_hexDigit : ∀ n, n < 16 → hexVal (hexDigit n) = some n := by decide

theorem parseStringBody_escStr (s : List Char) (r : List Char) :
    parseStringBody (escStr s ++ '"' :: r) = some (s, r) := by
  induction s generalizing r with
  | nil =>
    rw [escStr, List.nil_append, parseStringBody.eq_def]
    simp
  | cons c cs ih =>
    rw [escStr, List.append_assoc]
    by_cases h1 : c = '"'
    · subst h1
      rw [show escChar '"' = ['\\', '"'] from rfl]
      rw [List.cons_append, List.cons_append, parseStringBody.eq_def]
      simp [consParsed, ih]
    · by_cases h2 : c = '\\'
      · subst h2
        rw [show escChar '\\' = ['\\', '\\'] from rfl]
        rw [List.cons_append, List.cons_append, parseStringBody.eq_def]
        simp [consParsed, ih]
      · by_cases h3 : c = '\x08'
        · subst h3
          rw [show escChar '\x08' = ['\\', 'b'] from rfl]
          rw [List.cons_append, List.cons_append, parseStringBody.eq_def]
          simp [consParsed, ih]
        · by_cases h4 : c = '\x0C'
          · subst h4
            rw [show escChar '\x0C' = ['\\', 'f'] from rfl]
            rw [List.cons_append, List.cons_append, parseStringBody.eq_def]
            simp [consParsed, ih]
          · by_cases h5 : c = '\n'
            · subst h5
              rw [show escChar '\n' = ['\\', 'n'] from rfl]
              rw [List.cons_append, List.cons_append, parseStringBody.eq_def]
              simp [consParsed, ih]
            · by_cases h6 : c = '\r'
              · subst h6
                rw [show escChar '\r' = ['\\', 'r'] from rfl]
                rw [List.cons_append, List.cons_append, parseStringBody.eq_def]
                simp [consParsed, ih]
              · by_cases h7 : c = '\t'
                · subst h7
                  rw [show escChar '\t' = ['\\', 't'] from rfl]
                  rw [List.cons_append, List.cons_append, parseStringBody.eq_def]
                  simp [consParsed, ih]
                · by_cases h8 : c.toNat < 32
                  · rw [show escChar c =
                        ['\\', 'u', '0', '0', hexDigit (c.toNat / 16),
                          hexDigit (c.toNat % 16)] from by
                      simp only [escChar]
                      rw [if_neg h1, if_neg h2, if_neg h3, if_neg h4, if_neg h5,
                        if_neg h6, if_neg h7, if_pos h8]]
                    have d1 : hexVal (hexDigit (c.toNat / 16)) = some (c.toNat / 16) :=
                      hexVal_hexDigit _ (by omega)
                    have d2 : hexVal (hexDigit (c.toNat % 16)) = some (c.toNat % 16) :=
                      hexVal_hexDigit _ (by omega)
                    have key : ((0 * 16 + 0) * 16 + c.toNat / 16) * 16 + c.toNat % 16 =
                        c.toNat := by omega
                    simp only [List.cons_append]
                    rw [parseStringBody.eq_def]
                    simp [d1, d2, show hexVal '0' = some 0 from by decide, consParsed,
                      ih]
                    rw [show c.toNat / 16 * 16 + c.toNat % 16 = c.toNat from by omega,
                      Char.ofNat_toNat]
                  · rw [show escChar c = [c] from by
                      simp only [escChar]
                      rw [if_neg h1, if_neg h2, if_neg h3, if_neg h4, if_neg h5,
                        if_neg h6, if_neg h7, if_neg h8]]
                    rw [List.cons_append, List.nil_append]
                    rw [parseStringBody.eq_def]
                    simp only [if_neg h1, if_neg h2, ih, consParsed, Option.map]

theorem parseJString_quote (s : List Char) (rest : List Char) :
    parseJString (quoteChars s ++ rest) = some (s, rest) := by
  have h : quoteChars s ++ rest = '"' :: (escStr s ++ '"' :: rest) := by
    simp [quoteChars]
  rw [h, parseJString.eq_def]
  exact parseStringBody_escStr s rest

theorem parseBool_boolChars (b : Bool) (r : List Char) :
    parseBool (boolChars b ++ r) = some (b, r) := by
  cases b with
  | true =>
    rw [show boolChars true = ['t', 'r', 'u', 'e'] from rfl, parseBool,
      stripLit_append]
  | false =>
    rw [show boolChars false = ['f', 'a', 'l', 's', 'e'] from rfl, parseBool]
    rw [show stripLit ['t', 'r', 'u', 'e'] (['f', 'a', 'l', 's', 'e'] ++ r) =
        none from by simp [stripLit]]
    rw [stripLit_append]

set_option maxRecDepth 4000 in
theorem parseTask_taskChars (t : Task) (r : List Char) :
    parseTask (taskChars t ++ r) = some (t, r) := by
  simp only [taskChars, List.append_assoc]
  simp only [parseTask, stripLit_append, parseJString_quote, parseBool_boolChars]

theorem tasksBody_length (t : Task) (ts : List Task) :
    ts.length ≤ (tasksBody (t :: ts)).length := by
  induction ts generalizing t with
  | nil => simp
  | cons t2 ts' ih =>
    rw [tasksBody]
    have := ih t2
    simp only [List.length_append, List.length_cons]
    omega

theorem parseTasksBody_tasks (ts : List Task) (t : Task) (fuel : Nat)
    (h : ts.length ≤ fuel) :
    parseTasksBody fuel (tasksBody (t :: ts) ++ [']']) = some (t :: ts, [']']) := by
  induction ts generalizing t fuel with
  | nil =>
    rw [show tasksBody [t] = taskChars t from rfl, parseTasksBody,
      parseTask_taskChars]
    rfl
  | cons t2 ts' ih =>
    cases fuel with
    | zero => simp only [List.length_cons] at h; omega
    | succ f =>
      have hf : ts'.length ≤ f := by simp only [List.length_cons] at h; omega
      rw [tasksBody, List.append_assoc, List.cons_append, parseTasksBody,
        parseTask_taskChars]
      simp [ih t2 f hf]

theorem tasksBody_cons_head (t : Task) (ts : List Task) :
    ∃ b, tasksBody (t :: ts) = '{' :: b := by
  cases ts with
  | nil => exact ⟨_, rfl⟩
  | cons t2 ts' => exact ⟨_, rfl⟩

theorem parseTasks_bracket_brace (x : List Char) :
    parseTasks ('[' :: '{' :: x) =
      match parseTasksBody ('{' :: x).length ('{' :: x) with
      | none => none
      | some (ts, r2) =>
        match r2 with
        | ']' :: r3 => if r3 = [] then some ts else none
        | _ => none := rfl

theorem parseTasks_serializeTasks (l : List Task) :
    parseTasks (serializeTasks l) = some l := by
  cases l with
  | nil => rfl
  | cons t ts =>
    obtain ⟨body, hb⟩ := tasksBody_cons_head t ts
    have hshape : serializeTasks (t :: ts) = '[' :: '{' :: (body ++ [']']) := by
      rw [serializeTasks, hb]
      rfl
    have hback : '{' :: (body ++ [']']) = tasksBody (t :: ts) ++ [']'] := by
      rw [hb]
      rfl
    rw [hshape, parseTasks_bracket_brace, hback]
    rw [parseTasksBody_tasks ts t _ (by
      have h1 := tasksBody_length t ts
      simp only [List.length_append, List.length_cons]
      omega)]
    rfl

theorem serializeTasksStr_inj {a b : List Task}
    (h : serializeTasksStr a = serializeTasksStr b) : a = b := by
  have h2 : serializeTasks a = serializeTasks b := congrArg String.data h
  have h3 := congrArg parseTasks h2
  rw [parseTasks_serializeTasks, parseTasks_serializeTasks] at h3
  exact Option.some.inj h3

theorem serializeTasksStr_ne_empty (l : List Task) : serializeTasksStr l ≠ "" := by
  intro h
  have h2 : serializeTasks l = [] := congrArg String.data h
  simp [serializeTasks] at h2

/-! ## Helper lemmas about the operations -/

theorem parseTasksStr_serializeTasksStr (l : List Task) :
    parseTasksStr (serializeTasksStr l) = some l :=
  parseTasks_serializeTasks l

theorem updateFn_preserves_id (tid : String) (b : Bool) (t : Task) :
    (updateFn tid b t).id = t.id := by
  rw [updateFn]
  split <;> rfl

theorem map_updateFn_eq_self {l : List Task} {tid : String} {b : Bool}
    (h : ∀ t ∈ l, t.id = tid → t.isComplete = b) :
    l.map (updateFn tid b) = l := by
  induction l with
  | nil => rfl
  | cons t ts ih =>
    rw [List.map_cons, ih fun u hu => h u (List.mem_cons_of_mem _ hu)]
    have ht : updateFn tid b t = t := by
      rw [updateFn]
      split
      · rename_i hid
        have hc := h t (List.mem_cons_self t ts) hid
        cases t
        simp only at hc
        simp [hc]
      · rfl
    rw [ht]

theorem ids_map_updateFn (tid : String) (b : Bool) (l : List Task) :
    (l.map (updateFn tid b)).map Task.id = l.map Task.id := by
  rw [List.map_map]
  exact List.map_congr_left fun t _ => updateFn_preserves_id tid b t

/-! ## Claim C1 -/

/-- Claim C1 (amended): for every title that is empty or whitespace-only after
trimming, `createNewTask` performs no state change (store list and storage
both untouched) and no persistence write, and reports the failure only as a
console warning: the returned promise resolves, so no `ValidationError`
reaches the caller. -/
theorem createNewTask_emptyTitle (title : String) (now : Nat) (rand : String)
    (s : AppState) (h : jsTrim title = "") :
    createNewTask title now rand s = ⟨s, [.warn .emptyTitle], .resolved⟩ := by
  simp only [createNewTask, if_pos (Or.inr h)]

/-- Witness for C1's amended theorem at the whitespace-only title `"  "`. -/
theorem createNewTask_emptyTitle_witness :
    jsTrim "  " = "" ∧
    createNewTask "  " 0 "r" ⟨[], ⟨true, none, false⟩⟩ =
      ⟨⟨[], ⟨true, none, false⟩⟩, [.warn .emptyTitle], .resolved⟩ :=
  ⟨by decide, createNewTask_emptyTitle "  " 0 "r" ⟨[], ⟨true, none, false⟩⟩ (by decide)⟩

/-- Counterexample to C1 as stated: with the whitespace-only title `"  "` the
operation's promise resolves — the failure is never surfaced to the caller,
so no `ValidationError` is reported to it (the only caller-visible failure
channel of the source is promise rejection). -/
theorem createNewTask_emptyTitle_cx :
    jsTrim "  " = "" ∧
    (createNewTask "  " 0 "r" ⟨[], ⟨true, none, false⟩⟩).result = .resolved ∧
    (createNewTask "  " 0 "r" ⟨[], ⟨true, none, false⟩⟩).result ≠ .rejected := by
  decide

/-! ## Claim C5 -/

/-- Claim C5 (confirmed): when no task with the given id exists in the current
list, or every task with that id already has the requested `isComplete`
value, `updateTaskStatus` is an idempotent no-op: the state (store list and
storage) is unchanged, no commit and no save happen (the only event is the
non-fatal "not found" console warning), and the promise resolves — nothing is
raised to the caller. -/
theorem updateTaskStatus_noop (s : AppState) (taskId : String) (b : Bool)
    (h : ∀ t ∈ s.tasks, t.id = taskId → t.isComplete = b) :
    updateTaskStatus taskId b s = ⟨s, [.warn .updateNotFound], .resolved⟩ := by
  simp only [updateTaskStatus, map_updateFn_eq_self h]
  rw [if_neg fun hne => hne rfl]

/-- Witness for C5 at a task whose status already equals the new value. -/
theorem updateTaskStatus_noop_witness :
    (∀ t ∈ ([⟨"a", "t", true⟩] : List Task), t.id = "a" → t.isComplete = true) ∧
    updateTaskStatus "a" true ⟨[⟨"a", "t", true⟩], ⟨true, none, false⟩⟩ =
      ⟨⟨[⟨"a", "t", true⟩], ⟨true, none, false⟩⟩, [.warn .updateNotFound],
        .resolved⟩ :=
  ⟨by decide,
    updateTaskStatus_noop ⟨[⟨"a", "t", true⟩], ⟨true, none, false⟩⟩ "a" true
      (by decide)⟩

/-! ## Claim C7 -/

/-- Claim C7 (confirmed): for every list of tasks, when the storage boundary
is present and the write does not throw, `_saveTasksToDevice` followed by
`_loadTasksFromDevice` returns a list equal to the one saved (the
serializer/parser round trip). -/
theorem save_read_roundtrip (l : List Task) (st : Storage)
    (hav : st.available = true) (hw : st.writeFails = false) :
    _loadTasksFromDevice (_saveTasksToDevice l st).1 = l := by
  simp only [_saveTasksToDevice, hav, hw, if_true, if_false, Bool.false_eq_true,
    _loadTasksFromDevice]
  rw [if_neg (serializeTasksStr_ne_empty l), parseTasksStr_serializeTasksStr]

/-- Witness for C7 on a two-task list with both completion values. -/
theorem save_read_roundtrip_witness :
    _loadTasksFromDevice
        (_saveTasksToDevice [⟨"a", "x", false⟩, ⟨"b", "y", true⟩]
          ⟨true, none, false⟩).1 =
      [⟨"a", "x", false⟩, ⟨"b", "y", true⟩] :=
  save_read_roundtrip [⟨"a", "x", false⟩, ⟨"b", "y", true⟩] ⟨true, none, false⟩
    rfl rfl

/-! ## Claim C8 -/

/-- Claim C8 (confirmed): when the storage boundary is unavailable, the key is
absent (or holds the falsy empty string), or the stored record fails to
decode as a task list, `loadAllTasksFromDevice` commits an empty list to the
store, leaves storage untouched (no write-back), and resolves — it never
raises to its caller. -/
theorem loadAll_failure_empty (s : AppState)
    (h : s.storage.available = false ∨ s.storage.record = none ∨
      s.storage.record = some "" ∨
      ∃ str, s.storage.record = some str ∧ parseTasksStr str = none) :
    loadAllTasksFromDevice s = ⟨⟨[], s.storage⟩, [Event.commit []], .resolved⟩ := by
  have hload : _loadTasksFromDevice s.storage = [] := by
    rcases h with h | h | h | ⟨str, hrec, hparse⟩
    · simp [_loadTasksFromDevice, h]
    · simp only [_loadTasksFromDevice, h]
      split <;> rfl
    · simp only [_loadTasksFromDevice, h]
      split <;> simp
    · simp only [_loadTasksFromDevice, hrec, hparse]
      split
      · split
        · rfl
        · rfl
      · rfl
  simp only [loadAllTasksFromDevice, hload]

/-- Witness for C8 on an available boundary holding an undecodable record. -/
theorem loadAll_failure_empty_witness :
    parseTasksStr "garbage" = none ∧
    loadAllTasksFromDevice ⟨[⟨"a", "b", true⟩], ⟨true, some "garbage", false⟩⟩ =
      ⟨⟨[], ⟨true, some "garbage", false⟩⟩, [Event.commit []], .resolved⟩ :=
  ⟨by decide,
    loadAll_failure_empty ⟨[⟨"a", "b", true⟩], ⟨true, some "garbage", false⟩⟩
      (Or.inr (Or.inr (Or.inr ⟨"garbage", rfl, by decide⟩)))⟩

/-! ## Claim C2 -/

/-- One step preserves uniqueness of ids, provided a `create` step's generated
id is not already present in the list. -/
theorem step_nodup (op : Op) (s : AppState)
    (hnd : (s.tasks.map Task.id).Nodup)
    (hfresh : ∀ title now rand, op = .create title now rand →
      genTaskId now rand ∉ s.tasks.map Task.id) :
    ((step op s).tasks.map Task.id).Nodup := by
  cases op with
  | create title now rand =>
    have hf := hfresh title now rand rfl
    simp only [step]
    by_cases h : title = "" ∨ jsTrim title = ""
    · simp only [createNewTask, if_pos h]
      exact hnd
    · simp only [createNewTask, if_neg h]
      rw [List.map_append]
      exact hnd.append (List.nodup_singleton _) fun a ha hb => by
        rw [List.map_singleton, List.mem_singleton] at hb
        subst hb
        exact hf ha
  | update id b =>
    simp only [step, updateTaskStatus]
    split
    · simpa only [ids_map_updateFn] using hnd
    · exact hnd
  | del id =>
    simp only [step, deleteTask]
    split
    · exact hnd.sublist ((List.filter_sublist _).map Task.id)
    · exact hnd

/-- Run-level uniqueness invariant under the freshness side condition. -/
theorem run_nodup (ops : List Op) (s : AppState)
    (hnd : (s.tasks.map Task.id).Nodup) (hfresh : freshRun ops s = true) :
    ((run ops s).tasks.map Task.id).Nodup := by
  induction ops generalizing s with
  | nil => simpa [run] using hnd
  | cons op ops ih =>
    rw [freshRun, Bool.and_eq_true] at hfresh
    rw [run]
    refine ih (step op s) (step_nodup op s hnd ?_) hfresh.2
    intro title now rand hop
    subst hop
    have h1 : decide (genTaskId now rand ∉ s.tasks.map Task.id) = true :=
      hfresh.1
    exact of_decide_eq_true h1

/-- Claim C2 (amended): for every finite sequence of Create/UpdateStatus/
Delete operations starting from the initial empty store, provided every id
the generator hands to a `create` is distinct from every id then present in
the list (`freshRun`), every task id in the store's current list is unique.
The source does not enforce this proviso: the generator
`` `task-${Date.now()}-${rand}` `` can repeat. -/
theorem run_ids_nodup (ops : List Op) (st : Storage)
    (h : freshRun ops ⟨[], st⟩ = true) :
    ((run ops ⟨[], st⟩).tasks.map Task.id).Nodup :=
  run_nodup ops ⟨[], st⟩ (by simp) h

/-- Witness for C2's amended theorem on a four-operation run. -/
theorem run_ids_nodup_witness :
    freshRun [.create "a" 1 "x", .create "b" 2 "y", .update "task-1-x" true,
      .del "task-2-y"] ⟨[], ⟨false, none, false⟩⟩ = true ∧
    ((run [.create "a" 1 "x", .create "b" 2 "y", .update "task-1-x" true,
      .del "task-2-y"] ⟨[], ⟨false, none, false⟩⟩).tasks.map Task.id).Nodup :=
  ⟨by decide, run_ids_nodup _ ⟨false, none, false⟩ (by decide)⟩

/-- Counterexample to C2 as stated: two creates whose clock reading and
random suffix coincide (possible within one millisecond) produce two tasks
with the same id from the initial empty store. -/
theorem run_ids_dup_cx :
    ¬ (((run [.create "a" 5 "z", .create "b" 5 "z"]
        ⟨[], ⟨false, none, false⟩⟩).tasks.map Task.id).Nodup) := by
  decide

/-! ## Claim C3 -/

/-- Claim C3 (amended): for every title that is non-empty after trimming,
provided the freshly generated id does not already occur in the list,
`createNewTask` appends the task `⟨generated id, trimmed title, false⟩` to
the end of the current list (preserving all existing tasks and their order),
commits that list, invokes the save with the same list, and — when the
boundary is available and the write does not throw — persists exactly that
list's serialization.  The freshness proviso is not checked by the source. -/
theorem createNewTask_spec (s : AppState) (title : String) (now : Nat)
    (rand : String) (h1 : jsTrim title ≠ "")
    (h2 : genTaskId now rand ∉ s.tasks.map Task.id) :
    (createNewTask title now rand s).state.tasks =
      s.tasks ++ [⟨genTaskId now rand, jsTrim title, false⟩] ∧
    genTaskId now rand ∉ s.tasks.map Task.id ∧
    (createNewTask title now rand s).events =
      [.commit (s.tasks ++ [⟨genTaskId now rand, jsTrim title, false⟩]),
        .save (s.tasks ++ [⟨genTaskId now rand, jsTrim title, false⟩])] ∧
    (s.storage.available = true → s.storage.writeFails = false →
      (createNewTask title now rand s).state.storage.record =
        some (serializeTasksStr
          (s.tasks ++ [⟨genTaskId now rand, jsTrim title, false⟩]))) := by
  have hguard : ¬ (title = "" ∨ jsTrim title = "") := by
    rintro (he | he)
    · exact h1 (by rw [he]; rfl)
    · exact h1 he
  unfold createNewTask
  rw [if_neg hguard]
  exact ⟨rfl, h2, rfl, fun hav hw => by simp [_saveTasksToDevice, hav, hw]⟩

/-- Witness for C3's amended theorem creating `" a "` in the empty store. -/
theorem createNewTask_spec_witness :
    jsTrim " a " ≠ "" ∧
    genTaskId 1 "r" ∉ (([] : List Task).map Task.id) ∧
    (createNewTask " a " 1 "r" ⟨[], ⟨true, none, false⟩⟩).state.tasks =
      [] ++ [⟨genTaskId 1 "r", jsTrim " a ", false⟩] ∧
    (createNewTask " a " 1 "r" ⟨[], ⟨true, none, false⟩⟩).events =
      [.commit ([] ++ [⟨genTaskId 1 "r", jsTrim " a ", false⟩]),
        .save ([] ++ [⟨genTaskId 1 "r", jsTrim " a ", false⟩])] :=
  ⟨by decide, by decide,
    (createNewTask_spec ⟨[], ⟨true, none, false⟩⟩ " a " 1 "r" (by decide)
      (by decide)).1,
    (createNewTask_spec ⟨[], ⟨true, none, false⟩⟩ " a " 1 "r" (by decide)
      (by decide)).2.2.1⟩

/-- Counterexample to C3 as stated: when the generator repeats an id already
in the list (same millisecond, same random suffix), the newly appended task's
id is NOT distinct from every id already in the list. -/
theorem createNewTask_dup_id_cx :
    (createNewTask "b" 5 "z"
        ⟨[⟨"task-5-z", "a", false⟩], ⟨false, none, false⟩⟩).state.tasks.map
        Task.id = ["task-5-z", "task-5-z"] ∧
    genTaskId 5 "z" ∈ ([⟨"task-5-z", "a", false⟩] : List Task).map Task.id := by
  decide

/-! ## Claim C4 -/

/-- Claim C4 (amended): for every list in the store with pairwise-distinct
ids containing, at position `i`, a task with the given id whose `isComplete`
differs from the new value, `updateTaskStatus` commits and persists a new
list of the same length in which that task's `isComplete` equals the new
value while its id and title are unchanged, every other position is
unchanged (so order is preserved), the commit and the save carry that same
list, and — when the boundary is available and the write does not throw —
exactly that list's serialization is persisted.  The distinct-ids proviso is
forced by the source: `map` rewrites every task whose id matches. -/
theorem updateTaskStatus_spec (s : AppState) (taskId : String) (b : Bool)
    (i : Nat) (tsk : Task)
    (hnd : (s.tasks.map Task.id).Nodup)
    (hget : s.tasks[i]? = some tsk)
    (hid : tsk.id = taskId)
    (hne : tsk.isComplete ≠ b) :
    (updateTaskStatus taskId b s).state.tasks.length = s.tasks.length ∧
    (updateTaskStatus taskId b s).state.tasks[i]? =
      some ⟨tsk.id, tsk.title, b⟩ ∧
    (∀ j, j ≠ i →
      (updateTaskStatus taskId b s).state.tasks[j]? = s.tasks[j]?) ∧
    (updateTaskStatus taskId b s).events =
      [.commit ((updateTaskStatus taskId b s).state.tasks),
        .save ((updateTaskStatus taskId b s).state.tasks)] ∧
    (s.storage.available = true → s.storage.writeFails = false →
      (updateTaskStatus taskId b s).state.storage.record =
        some (serializeTasksStr ((updateTaskStatus taskId b s).state.tasks))) := by
  have hmapi : (s.tasks.map (updateFn taskId b))[i]? =
      some ⟨tsk.id, tsk.title, b⟩ := by
    rw [List.getElem?_map, hget, Option.map_some']
    rw [updateFn, if_pos hid]
  have hneq : s.tasks.map (updateFn taskId b) ≠ s.tasks := by
    intro he
    have h2 : (s.tasks.map (updateFn taskId b))[i]? = some tsk := by
      rw [he, hget]
    rw [hmapi] at h2
    have h3 := congrArg Task.isComplete (Option.some.inj h2)
    exact hne h3.symm
  have hser : serializeTasksStr s.tasks ≠
      serializeTasksStr (s.tasks.map (updateFn taskId b)) :=
    fun he => hneq (serializeTasksStr_inj he).symm
  have hbranch : updateTaskStatus taskId b s =
      ⟨⟨s.tasks.map (updateFn taskId b),
        (_saveTasksToDevice (s.tasks.map (updateFn taskId b)) s.storage).1⟩,
        [.commit (s.tasks.map (updateFn taskId b)),
          .save (s.tasks.map (updateFn taskId b))],
        (_saveTasksToDevice (s.tasks.map (updateFn taskId b)) s.storage).2⟩ := by
    unfold updateTaskStatus
    rw [if_pos hser]
  rw [hbranch]
  refine ⟨by simp, hmapi, ?_, rfl, fun hav hw => by
    simp [_saveTasksToDevice, hav, hw]⟩
  intro j hj
  rw [List.getElem?_map]
  cases hj2 : s.tasks[j]? with
  | none => rfl
  | some tj =>
    rw [Option.map_some']
    have hne2 : tj.id ≠ taskId := by
      intro he
      apply hj
      have hgi : (s.tasks.map Task.id)[i]? = some taskId := by
        rw [List.getElem?_map, hget, Option.map_some', hid]
      have hgj : (s.tasks.map Task.id)[j]? = some taskId := by
        rw [List.getElem?_map, hj2, Option.map_some', he]
      have hjlen : j < (s.tasks.map Task.id).length := by
        rw [List.length_map]
        obtain ⟨hlt, -⟩ := List.getElem?_eq_some.mp hj2
        exact hlt
      exact List.getElem?_inj hjlen hnd (hgj.trans hgi.symm)
    rw [updateFn, if_neg hne2]

/-- Witness for C4's amended theorem flipping a single task to complete. -/
theorem updateTaskStatus_spec_witness :
    (((⟨[⟨"a", "t", false⟩], ⟨true, none, false⟩⟩ : AppState).tasks.map
      Task.id).Nodup) ∧
    (updateTaskStatus "a" true
      ⟨[⟨"a", "t", false⟩], ⟨true, none, false⟩⟩).state.tasks.length = 1 ∧
    (updateTaskStatus "a" true
        ⟨[⟨"a", "t", false⟩], ⟨true, none, false⟩⟩).state.tasks[0]? =
      some ⟨"a", "t", true⟩ :=
  ⟨by decide,
    (updateTaskStatus_spec ⟨[⟨"a", "t", false⟩], ⟨true, none, false⟩⟩ "a" true 0
      ⟨"a", "t", false⟩ (by decide) (by decide) (by decide) (by decide)).1,
    (updateTaskStatus_spec ⟨[⟨"a", "t", false⟩], ⟨true, none, false⟩⟩ "a" true 0
      ⟨"a", "t", false⟩ (by decide) (by decide) (by decide) (by decide)).2.1⟩

/-- Counterexample to C4 as stated: on a list whose two tasks share the id
`"a"` (reachable, since ids are not guaranteed unique), the task at position
0 satisfies the claim's premise, yet the update also rewrites the other task
at position 1 — "every other task is unchanged" fails. -/
theorem updateTaskStatus_dup_cx :
    (([⟨"a", "t1", false⟩, ⟨"a", "t2", false⟩] : List Task)[0]? =
      some ⟨"a", "t1", false⟩) ∧
    (([⟨"a", "t1", false⟩, ⟨"a", "t2", false⟩] : List Task)[1]? =
      some ⟨"a", "t2", false⟩) ∧
    (updateTaskStatus "a" true
        ⟨[⟨"a", "t1", false⟩, ⟨"a", "t2", false⟩],
          ⟨false, none, false⟩⟩).state.tasks[1]? =
      some ⟨"a", "t2", true⟩ := by
  decide

/-! ## Claim C6 -/

/-- Claim C6 (amended): for every current list with pairwise-distinct ids,
(a) if a task with the given id is present, `deleteTask` commits and persists
the list with exactly that task removed — length down by exactly one,
relative order of the remaining tasks preserved — and (b) if no task has
that id, the operation is a complete no-op: unchanged state, no commit, no
save, only the non-fatal "not found" warning, and a resolved promise.  The
distinct-ids proviso is forced by the source: `filter` removes every task
whose id matches. -/
theorem deleteTask_spec (s : AppState) (taskId : String)
    (hnd : (s.tasks.map Task.id).Nodup) :
    (∀ l1 t l2, s.tasks = l1 ++ t :: l2 → t.id = taskId →
      (deleteTask taskId s).state.tasks = l1 ++ l2 ∧
      (deleteTask taskId s).state.tasks.length + 1 = s.tasks.length ∧
      (deleteTask taskId s).events =
        [.commit (l1 ++ l2), .save (l1 ++ l2)]) ∧
    ((∀ t ∈ s.tasks, t.id ≠ taskId) →
      deleteTask taskId s = ⟨s, [.warn .deleteNotFound], .resolved⟩) := by
  constructor
  · intro l1 t l2 hsplit hid
    have hnd' := hnd
    rw [hsplit, List.map_append, List.map_cons, List.nodup_append] at hnd'
    obtain ⟨nd1, nd2, disj⟩ := hnd'
    rw [List.nodup_cons] at nd2
    have hl1 : ∀ u ∈ l1, u.id ≠ taskId := by
      intro u hu he
      exact disj (List.mem_map_of_mem Task.id hu)
        (by rw [he, ← hid]; exact List.mem_cons_self _ _)
    have hl2 : ∀ u ∈ l2, u.id ≠ taskId := by
      intro u hu he
      exact nd2.1 (by rw [hid, ← he]; exact List.mem_map_of_mem Task.id hu)
    have hfilter : (s.tasks.filter fun u => u.id ≠ taskId) = l1 ++ l2 := by
      rw [hsplit, List.filter_append, List.filter_cons_of_neg (by simp [hid]),
        List.filter_eq_self.mpr fun u hu => by simp [hl1 u hu],
        List.filter_eq_self.mpr fun u hu => by simp [hl2 u hu]]
    have hlen : s.tasks.length ≠
        (s.tasks.filter fun u => u.id ≠ taskId).length := by
      rw [hfilter, hsplit]
      simp only [List.length_append, List.length_cons]
      omega
    have hbranch : deleteTask taskId s =
        ⟨⟨l1 ++ l2, (_saveTasksToDevice (l1 ++ l2) s.storage).1⟩,
          [.commit (l1 ++ l2), .save (l1 ++ l2)],
          (_saveTasksToDevice (l1 ++ l2) s.storage).2⟩ := by
      unfold deleteTask
      rw [if_pos hlen, hfilter]
    rw [hbranch]
    refine ⟨rfl, ?_, rfl⟩
    rw [hsplit]
    simp only [List.length_append, List.length_cons]
    omega
  · intro habs
    have hfilter : (s.tasks.filter fun u => u.id ≠ taskId) = s.tasks :=
      List.filter_eq_self.mpr fun u hu => by simp [habs u hu]
    unfold deleteTask
    rw [hfilter, if_neg fun hne => hne rfl]

/-- Witness for C6's amended theorem deleting the first of two tasks. -/
theorem deleteTask_spec_witness :
    (deleteTask "a"
      ⟨[⟨"a", "x", false⟩, ⟨"b", "y", true⟩],
        ⟨true, none, false⟩⟩).state.tasks = [] ++ [⟨"b", "y", true⟩] ∧
    (deleteTask "a"
      ⟨[⟨"a", "x", false⟩, ⟨"b", "y", true⟩],
        ⟨true, none, false⟩⟩).state.tasks.length + 1 =
      (⟨[⟨"a", "x", false⟩, ⟨"b", "y", true⟩],
        ⟨true, none, false⟩⟩ : AppState).tasks.length ∧
    (deleteTask "a"
      ⟨[⟨"a", "x", false⟩, ⟨"b", "y", true⟩], ⟨true, none, false⟩⟩).events =
      [.commit ([] ++ [⟨"b", "y", true⟩]), .save ([] ++ [⟨"b", "y", true⟩])] :=
  (deleteTask_spec ⟨[⟨"a", "x", false⟩, ⟨"b", "y", true⟩], ⟨true, none, false⟩⟩
    "a" (by decide)).1 [] ⟨"a", "x", false⟩ [⟨"b", "y", true⟩] rfl rfl

/-- Counterexample to C6 as stated: on a list whose two tasks share the id
`"a"` (reachable, since ids are not guaranteed unique), deleting `"a"`
removes both, so the length drops by two, not exactly one. -/
theorem deleteTask_dup_cx :
    (∃ t ∈ ([⟨"a", "t1", false⟩, ⟨"a", "t2", false⟩] : List Task),
      t.id = "a") ∧
    (deleteTask "a"
      ⟨[⟨"a", "t1", false⟩, ⟨"a", "t2", false⟩],
        ⟨false, none, false⟩⟩).state.tasks.length = 0 ∧
    ([⟨"a", "t1", false⟩, ⟨"a", "t2", false⟩] : List Task).length = 2 := by
  refine ⟨⟨⟨"a", "t1", false⟩, by decide, rfl⟩, by decide, rfl⟩

/-! ## Claim C9 -/

/-- Claim C9 (confirmed): within every mutating operation that changes the
list (a create with a valid title, an update whose mapped list differs, a
delete that removes something), the events are exactly a commit followed by
a save of one and the same list value, that list is what the store is left
holding, and when the persistence write fails (available boundary whose
`setItem` throws) the promise is rejected while the already-committed list
is kept — not rolled back. -/
theorem mutation_commit_then_save (s : AppState) (title : String) (now : Nat)
    (rand : String) (uid : String) (ub : Bool) (did : String) :
    (jsTrim title ≠ "" →
      commitThenSaveKept (createNewTask title now rand s) s.storage) ∧
    (s.tasks.map (updateFn uid ub) ≠ s.tasks →
      commitThenSaveKept (updateTaskStatus uid ub s) s.storage) ∧
    ((s.tasks.filter fun t => t.id ≠ did).length ≠ s.tasks.length →
      commitThenSaveKept (deleteTask did s) s.storage) := by
  refine ⟨fun h1 => ?_, fun h2 => ?_, fun h3 => ?_⟩
  · have hguard : ¬ (title = "" ∨ jsTrim title = "") := by
      rintro (he | he)
      · exact h1 (by rw [he]; rfl)
      · exact h1 he
    unfold createNewTask
    rw [if_neg hguard]
    exact ⟨_, rfl, rfl, fun hav hw => by simp [_saveTasksToDevice, hav, hw]⟩
  · have hser : serializeTasksStr s.tasks ≠
        serializeTasksStr (s.tasks.map (updateFn uid ub)) :=
      fun he => h2 (serializeTasksStr_inj he).symm
    unfold updateTaskStatus
    rw [if_pos hser]
    exact ⟨_, rfl, rfl, fun hav hw => by simp [_saveTasksToDevice, hav, hw]⟩
  · have hlen : s.tasks.length ≠
        (s.tasks.filter fun t => t.id ≠ did).length :=
      fun he => h3 he.symm
    unfold deleteTask
    rw [if_pos hlen]
    exact ⟨_, rfl, rfl, fun hav hw => by simp [_saveTasksToDevice, hav, hw]⟩

/-- Witness for C9 on a one-task store whose boundary write throws: all three
mutating operations commit then save the same list, keep it, and reject. -/
theorem mutation_commit_then_save_witness :
    commitThenSaveKept
      (createNewTask "x" 1 "r" ⟨[⟨"a", "t", false⟩], ⟨true, none, true⟩⟩)
      (⟨[⟨"a", "t", false⟩], ⟨true, none, true⟩⟩ : AppState).storage ∧
    commitThenSaveKept
      (updateTaskStatus "a" true ⟨[⟨"a", "t", false⟩], ⟨true, none, true⟩⟩)
      (⟨[⟨"a", "t", false⟩], ⟨true, none, true⟩⟩ : AppState).storage ∧
    commitThenSaveKept
      (deleteTask "a" ⟨[⟨"a", "t", false⟩], ⟨true, none, true⟩⟩)
      (⟨[⟨"a", "t", false⟩], ⟨true, none, true⟩⟩ : AppState).storage :=
  ⟨(mutation_commit_then_save ⟨[⟨"a", "t", false⟩], ⟨true, none, true⟩⟩ "x" 1
      "r" "a" true "a").1 (by decide),
    (mutation_commit_then_save ⟨[⟨"a", "t", false⟩], ⟨true, none, true⟩⟩ "x" 1
      "r" "a" true "a").2.1 (by decide),
    (mutation_commit_then_save ⟨[⟨"a", "t", false⟩], ⟨true, none, true⟩⟩ "x" 1
      "r" "a" true "a").2.2 (by decide)⟩

end TaskWise
